import Mathlib

/-!
# Zoo restaurant ratings widget (`src/script.js`)

A shallow embedding of the ratings store, the aggregator, the popup renderer and the
selection cache of `script.js`, followed by the properties proved about them.

Modelling conventions.

* JavaScript values are the type `Val`: the JSON values, `undefined`, and arrays carrying
  the extra named properties that `a[k] = v` may put on an array.
* Numbers are exact: a `JSNum` is a rational, `NaN`, `+Infinity` or `-Infinity`. Floating
  point rounding and the sign of zero are not represented.
* Strings are sequences of Unicode code points.
* The conversions between strings and numbers (`StringToNumber`, `Number::toString`) are
  language builtins; they are the two fields of `Builtins` and every theorem holds for
  every choice of them.
* An object is the list of its own properties, in insertion order; members inherited
  from the builtin prototypes (`toString`, `push`, ...) are not represented, so a property
  key is assumed not to name one.
* The text kept in `localStorage` is represented by what `JSON.parse` makes of it
  (`Stored`); the storage is assumed to be available and to accept every write.
* A thrown exception is the `error` of `Except JSError`.
* The document is not represented: `updateButtonsCheckedState` and
  `currentPopup.setContent` change attributes and markup only. The callback that the
  submit branch defers with `setTimeout(..., 0)` is taken to run before the next click.
* The map bootstrap (tiles, markers, popup opening) belongs to the mapping library and is
  left out.
-/

namespace ZooRatings

/-! ## Numbers -/

/-- A JavaScript number: `NaN`, the two infinities, or an exact rational. -/
inductive JSNum where
  | nan
  | posInf
  | negInf
  | fin (q : ℚ)
deriving DecidableEq

namespace JSNum

/-- The `+` of two numbers. -/
def add : JSNum → JSNum → JSNum
  | fin a, fin b => fin (a + b)
  | nan, _ => nan
  | _, nan => nan
  | posInf, negInf => nan
  | negInf, posInf => nan
  | posInf, _ => posInf
  | _, posInf => posInf
  | negInf, _ => negInf
  | _, negInf => negInf

/-- The sign flip used by `mul` and `div`. -/
def neg : JSNum → JSNum
  | nan => nan
  | posInf => negInf
  | negInf => posInf
  | fin q => fin (-q)

/-- An infinity times a finite `q`: `NaN` when `q` is zero, else the infinity with the
sign of `q` applied. -/
def infTimes (inf : JSNum) (q : ℚ) : JSNum :=
  if q = 0 then nan else if 0 < q then inf else neg inf

/-- The `*` of two numbers. -/
def mul : JSNum → JSNum → JSNum
  | fin a, fin b => fin (a * b)
  | nan, _ => nan
  | _, nan => nan
  | posInf, fin b => infTimes posInf b
  | negInf, fin b => infTimes negInf b
  | fin a, posInf => infTimes posInf a
  | fin a, negInf => infTimes negInf a
  | posInf, posInf => posInf
  | negInf, negInf => posInf
  | posInf, negInf => negInf
  | negInf, posInf => negInf

/-- The `/` of two numbers (a zero divisor is the positive zero). -/
def div : JSNum → JSNum → JSNum
  | fin a, fin b =>
    if b = 0 then (if a = 0 then nan else if 0 < a then posInf else negInf) else fin (a / b)
  | nan, _ => nan
  | _, nan => nan
  | fin _, posInf => fin 0
  | fin _, negInf => fin 0
  | posInf, fin b => if 0 ≤ b then posInf else negInf
  | negInf, fin b => if 0 ≤ b then negInf else posInf
  | posInf, posInf => nan
  | posInf, negInf => nan
  | negInf, posInf => nan
  | negInf, negInf => nan

/-- The builtin `Math.round`: the nearest integer, halves going up. -/
def round : JSNum → JSNum
  | fin q => fin (⌊q + 1 / 2⌋ : ℤ)
  | n => n

/-- The builtin `Number.isFinite` on a number. -/
def isFinite : JSNum → Bool
  | fin _ => true
  | _ => false

/-- The comparison `a >= b`. -/
def ge : JSNum → JSNum → Bool
  | nan, _ => false
  | _, nan => false
  | fin a, fin b => decide (b ≤ a)
  | posInf, _ => true
  | _, negInf => true
  | fin _, posInf => false
  | negInf, fin _ => false
  | negInf, posInf => false

/-- The comparison `a <= b`. -/
def le (a b : JSNum) : Bool := ge b a

/-- The comparison `a === b` of two numbers: `NaN` equals nothing. -/
def strictEq : JSNum → JSNum → Bool
  | nan, _ => false
  | _, nan => false
  | a, b => decide (a = b)

/-- A natural number as a JavaScript number. -/
def ofNat (n : ℕ) : JSNum := fin (n : ℚ)

end JSNum

/-! ## Values -/

/-- A JavaScript value: `undefined`, the JSON values, and arrays with their extra named
properties (`props`). An object is the list of its own properties. -/
inductive Val where
  | undefined
  | null
  | bool (b : Bool)
  | num (n : JSNum)
  | str (s : String)
  | arr (elems : List Val) (props : List (String × Val))
  | obj (props : List (String × Val))

/-- An exception thrown by the program. -/
inductive JSError where
  | typeError
  | rangeError
deriving DecidableEq

/-- The language builtins converting between strings and numbers. -/
structure Builtins where
  /-- The conversion `StringToNumber` behind `Number(s)` for a string `s`. -/
  strToNum : String → JSNum
  /-- The conversion `Number::toString`. -/
  numToString : JSNum → String

namespace Val

/-- The truthiness of a value (`!v` is its negation). -/
def truthy : Val → Bool
  | undefined => false
  | null => false
  | bool b => b
  | num JSNum.nan => false
  | num (JSNum.fin q) => decide (q ≠ 0)
  | num _ => true
  | str s => decide (s ≠ "")
  | arr _ _ => true
  | obj _ => true

/-- The builtin `Array.isArray`. -/
def isArray : Val → Bool
  | arr _ _ => true
  | _ => false

/-- The test `typeof v === 'object'`. -/
def typeofObject : Val → Bool
  | null => true
  | arr _ _ => true
  | obj _ => true
  | _ => false

/-- The test `a === b`. The program applies it to numbers and `undefined` only; two
arrays or objects are never reported equal. -/
def strictEq : Val → Val → Bool
  | undefined, undefined => true
  | null, null => true
  | bool a, bool b => a == b
  | num a, num b => JSNum.strictEq a b
  | str a, str b => a == b
  | _, _ => false

end Val

/-! ## Own properties -/

/-- The value stored under `k` in a property list, `undefined` when there is none. -/
def assocGet (ps : List (String × Val)) (k : String) : Val :=
  match ps.find? (fun p => p.1 == k) with
  | some p => p.2
  | none => Val.undefined

/-- Store `v` under `k`: in place when the key exists, at the end otherwise. -/
def assocSet : List (String × Val) → String → Val → List (String × Val)
  | [], k, v => [(k, v)]
  | p :: ps, k, v => if p.1 == k then (k, v) :: ps else p :: assocSet ps k v

/-- Remove the key `k`. -/
def assocDelete (ps : List (String × Val)) (k : String) : List (String × Val) :=
  ps.filter (fun p => !(p.1 == k))

/-- The value of a decimal digit character. -/
def digitValue (c : Char) : ℕ := c.toNat - 48

/-- The array index a property key denotes: the key is the canonical decimal form of a
number below `2^32 - 1`. -/
def arrayIndex? (k : String) : Option ℕ :=
  let cs := k.data
  if cs.all Char.isDigit && !cs.isEmpty && (cs.length == 1 || cs.head? != some '0') then
    let n := cs.foldl (fun acc c => 10 * acc + digitValue c) 0
    if n < 2 ^ 32 - 1 then some n else none
  else none

/-! ## Conversions -/

mutual
/-- The conversion `ToString`: an array is its elements joined by commas, with
`undefined` and `null` elements left empty. -/
def toStr (B : Builtins) : Val → String
  | Val.undefined => "undefined"
  | Val.null => "null"
  | Val.bool true => "true"
  | Val.bool false => "false"
  | Val.num n => B.numToString n
  | Val.str s => s
  | Val.arr xs _ => ",".intercalate (toStrElems B xs)
  | Val.obj _ => "[object Object]"
/-- The strings of the elements of an array, as `Array.prototype.join` takes them. -/
def toStrElems (B : Builtins) : List Val → List String
  | [] => []
  | Val.undefined :: xs => "" :: toStrElems B xs
  | Val.null :: xs => "" :: toStrElems B xs
  | x :: xs => toStr B x :: toStrElems B xs
end

/-- The conversion `ToPrimitive`: arrays and objects become their string. -/
def toPrimitive (B : Builtins) : Val → Val
  | Val.arr xs ps => Val.str (toStr B (Val.arr xs ps))
  | Val.obj ps => Val.str (toStr B (Val.obj ps))
  | v => v

/-- The conversion `Number(v)`. -/
def toNumber (B : Builtins) : Val → JSNum
  | Val.undefined => JSNum.nan
  | Val.null => JSNum.fin 0
  | Val.bool true => JSNum.fin 1
  | Val.bool false => JSNum.fin 0
  | Val.num n => n
  | Val.str s => B.strToNum s
  | Val.arr xs ps => B.strToNum (toStr B (Val.arr xs ps))
  | Val.obj ps => B.strToNum (toStr B (Val.obj ps))

/-- The operator `a + b`: concatenation when either side is a string once made
primitive, addition of the two numbers otherwise. -/
def jsAdd (B : Builtins) (a b : Val) : Val :=
  match toPrimitive B a, toPrimitive B b with
  | Val.str s, pb => Val.str (s ++ toStr B pb)
  | pa, Val.str t => Val.str (toStr B pa ++ t)
  | pa, pb => Val.num (JSNum.add (toNumber B pa) (toNumber B pb))

/-! ## Property access -/

/-- The read `v[k]`. Reading from `undefined` or `null` throws. -/
def getProp (v : Val) (k : String) : Except JSError Val :=
  match v with
  | Val.undefined => throw JSError.typeError
  | Val.null => throw JSError.typeError
  | Val.bool _ => pure Val.undefined
  | Val.num _ => pure Val.undefined
  | Val.str s =>
    if k = "length" then pure (Val.num (JSNum.ofNat s.length))
    else match arrayIndex? k with
      | some i => pure (if i < s.length then Val.str (String.singleton (s.data.getD i ' '))
                        else Val.undefined)
      | none => pure Val.undefined
  | Val.arr xs ps =>
    if k = "length" then pure (Val.num (JSNum.ofNat xs.length))
    else match arrayIndex? k with
      | some i => pure (xs.getD i Val.undefined)
      | none => pure (assocGet ps k)
  | Val.obj ps => pure (assocGet ps k)

/-- The assignment `a.length = v` on an array with elements `xs`: a `RangeError` unless
`Number(v)` is a natural number below `2^32`. -/
def setLength (B : Builtins) (xs : List Val) (v : Val) : Except JSError (List Val) :=
  match toNumber B v with
  | JSNum.fin q =>
    if 0 ≤ q ∧ q.den = 1 ∧ q.num.toNat < 2 ^ 32 then
      let n := q.num.toNat
      pure (xs.take n ++ List.replicate (n - xs.length) Val.undefined)
    else throw JSError.rangeError
  | _ => throw JSError.rangeError

/-- The assignment `a[i] = v` on the elements of an array; the array grows when `i` is
past its end. -/
def setIndex (xs : List Val) (i : ℕ) (v : Val) : List Val :=
  if i < xs.length then xs.set i v
  else xs ++ List.replicate (i - xs.length) Val.undefined ++ [v]

/-- The assignment `o[k] = v` in strict mode; the result is the updated `o`.
Assigning on `undefined`, `null` or a primitive throws a `TypeError`. -/
def setProp (B : Builtins) (o : Val) (k : String) (v : Val) : Except JSError Val :=
  match o with
  | Val.obj ps => pure (Val.obj (assocSet ps k v))
  | Val.arr xs ps =>
    if k = "length" then do
      let ys ← setLength B xs v
      pure (Val.arr ys ps)
    else match arrayIndex? k with
      | some i => pure (Val.arr (setIndex xs i v) ps)
      | none => pure (Val.arr xs (assocSet ps k v))
  | _ => throw JSError.typeError

/-- The call `l.push(v)`; the result is the updated `l`. Only an array has a `push`. -/
def push (l : Val) (v : Val) : Except JSError Val :=
  match l with
  | Val.arr xs ps => pure (Val.arr (xs ++ [v]) ps)
  | _ => throw JSError.typeError

/-! ## Persistence -/

mutual
/-- The value `JSON.parse(JSON.stringify(v))`: non-finite numbers become `null`, the
named properties of arrays are lost. -/
def jsonValue : Val → Val
  | Val.num (JSNum.fin q) => Val.num (JSNum.fin q)
  | Val.num _ => Val.null
  | Val.arr xs _ => Val.arr (jsonElems xs) []
  | Val.obj ps => Val.obj (jsonProps ps)
  | v => v
/-- The elements of a serialised array: `undefined` becomes `null`. -/
def jsonElems : List Val → List Val
  | [] => []
  | Val.undefined :: xs => Val.null :: jsonElems xs
  | x :: xs => jsonValue x :: jsonElems xs
/-- The properties of a serialised object: those holding `undefined` are left out. -/
def jsonProps : List (String × Val) → List (String × Val)
  | [] => []
  | (_, Val.undefined) :: ps => jsonProps ps
  | (k, v) :: ps => (k, jsonValue v) :: jsonProps ps
end

/-- The key of the persisted ratings table. -/
def STORAGE_KEY : String := "zoo_ratings_v1"

/-- The content of `localStorage` under `STORAGE_KEY`, as `loadRatings` sees it:
no entry, a text that `JSON.parse` rejects (the empty text among them), or a text that
`JSON.parse` turns into the value `v`. -/
inductive Stored where
  | missing
  | malformed
  | json (v : Val)

/-- The five rating categories. -/
def categories : List String := ["ice cream", "coffee", "casserole", "waffle", "other"]

/-- The function `loadRatings`: the parsed table, or `{}` when there is no text, the text
does not parse, or the parsed value fails `typeof data === 'object' && data`. -/
def loadRatings (st : Stored) : Val :=
  match st with
  | Stored.missing => Val.obj []
  | Stored.malformed => Val.obj []
  | Stored.json data => if data.typeofObject && data.truthy then data else Val.obj []

/-- The function `saveRatings`: the storage after `setItem(STORAGE_KEY,
JSON.stringify(all))`. The serialisation of `undefined` is not JSON. -/
def saveRatings (all : Val) : Stored :=
  match all with
  | Val.undefined => Stored.malformed
  | v => Stored.json (jsonValue v)

/-- One turn of the loop of `ensureRestaurant`, for the category `c`. -/
def ensureCategory (B : Builtins) (restaurantId : String) (all : Val) (c : String) :
    Except JSError Val := do
  let r ← getProp all restaurantId
  let x ← getProp r c
  if !x.isArray then
    let r ← setProp B r c (Val.arr [] [])
    setProp B all restaurantId r
  else pure all

/-- The function `ensureRestaurant`; the result is the updated `all`. -/
def ensureRestaurant (B : Builtins) (all : Val) (restaurantId : String) :
    Except JSError Val := do
  let cur ← getProp all restaurantId
  let all ← if !cur.truthy then setProp B all restaurantId (Val.obj []) else pure all
  categories.foldlM (ensureCategory B restaurantId) all

/-- One turn of the loop of `addRatings`, for the entry `[cat, value]`. -/
def addRating (B : Builtins) (restaurantId : String) (all : Val) (entry : String × Val) :
    Except JSError Val := do
  let num := toNumber B entry.2
  if num.isFinite && JSNum.ge num (JSNum.fin 1) && JSNum.le num (JSNum.fin 5) then
    let r ← getProp all restaurantId
    let l ← getProp r entry.1
    let l ← push l (Val.num num)
    let r ← setProp B r entry.1 l
    setProp B all restaurantId r
  else pure all

/-- The function `addRatings`; `newRatings` is `Object.entries(newRatings)`, the result
is the storage after `saveRatings`. -/
def addRatings (B : Builtins) (st : Stored) (restaurantId : String)
    (newRatings : List (String × Val)) : Except JSError Stored := do
  let all := loadRatings st
  let all ← ensureRestaurant B all restaurantId
  let all ← newRatings.foldlM (addRating B restaurantId) all
  pure (saveRatings all)

/-! ## Aggregation -/

/-- The function `average`. -/
def average (B : Builtins) (arr : Val) : Val :=
  match arr with
  | Val.arr xs _ =>
    if xs.length = 0 then Val.null
    else
      let sum := xs.foldl (jsAdd B) (Val.num (JSNum.fin 0))
      Val.num (JSNum.div (JSNum.round (JSNum.mul
        (JSNum.div (toNumber B sum) (JSNum.ofNat xs.length)) (JSNum.fin 10))) (JSNum.fin 10))
  | _ => Val.null

/-- One turn of the loop of `getRestaurantStats`, for the category `c`; the result is
the updated `stats`. -/
def categoryStats (B : Builtins) (restaurantId : String) (all : Val) (stats : Val)
    (c : String) : Except JSError Val := do
  let r ← getProp all restaurantId
  let arr ← getProp r c
  let count ← getProp arr "length"
  setProp B stats c (Val.obj [("avg", average B arr), ("count", count)])

/-- The function `getRestaurantStats`: the object holding `{avg, count}` per category. -/
def getRestaurantStats (B : Builtins) (st : Stored) (restaurantId : String) :
    Except JSError Val := do
  let all := loadRatings st
  let all ← ensureRestaurant B all restaurantId
  categories.foldlM (categoryStats B restaurantId all) (Val.obj [])

/-! ## Configuration -/

/-- A restaurant of the map: identifier, display name and coordinates. -/
structure Restaurant where
  id : String
  name : String
  lat : ℚ
  lng : ℚ

/-- The configured restaurants. -/
def restaurants : List Restaurant :=
  [ { id := "rst-1", name := "Safari Bites", lat := 32.7359, lng := -117.1498 },
    { id := "rst-2", name := "Elephant Grounds", lat := 32.7351, lng := -117.1509 },
    { id := "rst-3", name := "Penguin Scoop", lat := 32.7345, lng := -117.1482 },
    { id := "rst-4", name := "Giraffe Grill", lat := 32.7362, lng := -117.1477 },
    { id := "rst-5", name := "Waffle Warden", lat := 32.7349, lng := -117.1466 } ]

/-! ## Popup rendering -/

/-- Replace every occurrence of the character `c` by the text `rep`
(`s.replace(/c/g, rep)`). -/
def replaceAll (c : Char) (rep : List Char) : List Char → List Char
  | [] => []
  | x :: xs => if x = c then rep ++ replaceAll c rep xs else x :: replaceAll c rep xs

/-- The function `escapeHtml`: the five replacements, in the order of the source. -/
def escapeHtml (s : String) : String :=
  String.mk
    (replaceAll (Char.ofNat 39) "&#039;".data
      (replaceAll (Char.ofNat 34) "&quot;".data
        (replaceAll '>' "&gt;".data
          (replaceAll '<' "&lt;".data
            (replaceAll '&' "&amp;".data s.data)))))

/-- The characters the regular expression class `\s` matches. -/
def isSpace (c : Char) : Bool :=
  let n := c.toNat
  (9 ≤ n && n ≤ 13) || n = 32 || n = 160 || n = 5760 || (8192 ≤ n && n ≤ 8202)
    || n = 8232 || n = 8233 || n = 8239 || n = 8287 || n = 12288 || n = 65279

/-- The replacement of `titleCase` over the characters of a text; `start` tells that the
position is the beginning of the text or follows a `\s` character. -/
def titleCaseChars : Bool → List Char → List Char
  | _, [] => []
  | start, c :: cs =>
    (if start && c.isLower then c.toUpper else c) :: titleCaseChars (isSpace c) cs

/-- The function `titleCase`: every letter `a`-`z` at the beginning of the text or after
a `\s` character becomes upper case. -/
def titleCase (s : String) : String := String.mk (titleCaseChars true s.data)

/-- One row of the statistics table of `templatePopup`, for the category `c`. -/
def statsRow (B : Builtins) (stats : Val) (c : String) : Except JSError String := do
  let s ← getProp stats c
  let avg ← getProp s "avg"
  let count ← getProp s "count"
  let avgText := match avg with
    | Val.null => "?"
    | a => toStr B a ++ " ?"
  pure ("<tr><th>" ++ escapeHtml (titleCase c) ++ "</th><td>" ++ avgText ++ "</td><td>"
    ++ toStr B count ++ " vote"
    ++ (if Val.strictEq count (Val.num (JSNum.fin 1)) then "" else "s") ++ "</td></tr>")

/-- One rating button of `templatePopup`; `category` is the text put in the
`data-category` attribute. -/
def ratingButton (B : Builtins) (name category : String) (v : ℕ) : String :=
  "<button type=\"button\" class=\"rating-input\" data-name=\"" ++ name
    ++ "\" data-category=\"" ++ category ++ "\" data-value=\""
    ++ B.numToString (JSNum.ofNat v) ++ "\"><span>" ++ B.numToString (JSNum.ofNat v)
    ++ "</span></button>"

/-- The selection cache key of a restaurant id and a category, as `templatePopup` builds
it for the `data-name` attribute. -/
def selectionKey (restaurantId c : String) : String := "rate-" ++ restaurantId ++ "-" ++ c

/-- The rating controls of `templatePopup` for the category `c`. -/
def categoryInput (B : Builtins) (restaurant : Restaurant) (c : String) : String :=
  let name := selectionKey restaurant.id c
  let buttons := String.join ([1, 2, 3, 4, 5].map (fun v => ratingButton B name c v))
  "<div class=\"category\"><label>" ++ escapeHtml (titleCase c)
    ++ "</label><div class=\"ratings-row\" role=\"radiogroup\" aria-label=\""
    ++ escapeHtml c ++ "\">" ++ buttons ++ "</div></div>"

/-- The template literal that `templatePopup` returns, around its four insertions. -/
def popupFrame (restaurantId title statsRows inputs : String) : String :=
  "\n"
    ++ "      <div class=\"popup-container\" data-restaurant-id=\"" ++ restaurantId ++ "\">\n"
    ++ "        <h3 class=\"popup-title\">" ++ title ++ "</h3>\n"
    ++ "        <div class=\"popup-section stats\">\n"
    ++ "          <table>\n"
    ++ "            <thead><tr><th>Category</th><th>Avg</th><th>Votes</th></tr></thead>\n"
    ++ "            <tbody>" ++ statsRows ++ "</tbody>\n"
    ++ "          </table>\n"
    ++ "        </div>\n"
    ++ "        <div class=\"popup-section\">\n"
    ++ "          " ++ inputs ++ "\n"
    ++ "          <div class=\"actions\">\n"
    ++ "            <button class=\"button\" data-action=\"submit\">Submit Selected Ratings</button>\n"
    ++ "            <button class=\"button secondary\" data-action=\"clear\">Clear Selections</button>\n"
    ++ "          </div>\n"
    ++ "        </div>\n"
    ++ "      </div>\n"
    ++ "    "

/-- The function `templatePopup`: the HTML of the popup of a restaurant. -/
def templatePopup (B : Builtins) (st : Stored) (restaurant : Restaurant) :
    Except JSError String := do
  let stats ← getRestaurantStats B st restaurant.id
  let statsRows ← categories.mapM (statsRow B stats)
  let inputs := categories.map (categoryInput B restaurant)
  pure (popupFrame restaurant.id (escapeHtml restaurant.name) (String.join statsRows)
    (String.join inputs))

/-- The text `s.split(sep)` over characters, for a separator of one character. -/
def splitChars (sep : Char) : List Char → List (List Char)
  | [] => [[]]
  | c :: cs =>
    if c = sep then [] :: splitChars sep cs
    else match splitChars sep cs with
      | [] => [[c]]
      | seg :: rest => (c :: seg) :: rest

/-- The call `name.split('-')`. -/
def splitDash (name : String) : List String :=
  (splitChars '-' name.data).map String.mk

/-- The state the click handler works on: the persisted text and the selection cache
(the `Map` named `selection`, in insertion order). -/
structure State where
  storage : Stored
  selection : List (String × Val)

/-- The object `selectedForRestaurant` that the submit branch collects: for every cache
entry whose second `-` segment is the restaurant id, the third segment (the key
`undefined` when there is none) receives the value. -/
def collectSelected (selection : List (String × Val)) (restaurant : Restaurant) :
    List (String × Val) :=
  selection.foldl (fun selected entry =>
    let parts := splitDash entry.1
    if parts[1]? = some restaurant.id then
      assocSet selected (parts[2]?.getD "undefined") entry.2
    else selected) []

/-- The loop of the clear branch (and of the deferred part of the submit branch): over a
copy of the entries, delete those whose second `-` segment is the restaurant id. -/
def clearForRestaurant (selection : List (String × Val)) (restaurant : Restaurant) :
    List (String × Val) :=
  selection.foldl (fun sel entry =>
    if (splitDash entry.1)[1]? = some restaurant.id then assocDelete sel entry.1
    else sel) selection

/-- The rating-button branch: `selection.set(name, selection.get(name) === value ?
undefined : value)`, then the deletion of a key left at `undefined`. -/
def toggleSelection (selection : List (String × Val)) (name : String) (value : JSNum) :
    List (String × Val) :=
  let sel := assocSet selection name
    (if Val.strictEq (assocGet selection name) (Val.num value) then Val.undefined
     else Val.num value)
  if Val.strictEq (assocGet sel name) Val.undefined then assocDelete sel name else sel

/-- A click inside the popup: on the submit button, on the clear button, on a rating
button carrying `data-name` and the number of `data-value`, or outside any of them. -/
inductive Click where
  | submit
  | clear
  | rating (name : String) (value : JSNum)
  | other

/-- The submit branch, the deferred callback included: the new state and the exception
thrown, if any. -/
def submitAction (B : Builtins) (restaurant : Restaurant) (s : State) :
    State × Option JSError :=
  let selectedForRestaurant := collectSelected s.selection restaurant
  if selectedForRestaurant.length > 0 then
    match addRatings B s.storage restaurant.id selectedForRestaurant with
    | Except.error e => (s, some e)
    | Except.ok storage =>
      match templatePopup B storage restaurant with
      | Except.error e => ({ s with storage := storage }, some e)
      | Except.ok _ =>
        ({ storage := storage, selection := clearForRestaurant s.selection restaurant }, none)
  else (s, none)

/-- The click listener that `bindPopupInteractions` installs for a restaurant. -/
def bindPopupInteractions (B : Builtins) (restaurant : Restaurant) (s : State) (e : Click) :
    State × Option JSError :=
  match e with
  | Click.submit => submitAction B restaurant s
  | Click.clear => ({ s with selection := clearForRestaurant s.selection restaurant }, none)
  | Click.rating name value =>
    ({ s with selection := toggleSelection s.selection name value }, none)
  | Click.other => (s, none)

/-! ## Escaping: the single pass -/

/-- A choice of the builtins for the closed examples. It reads the empty text and the
canonical decimal naturals below `2^32 - 1` as JavaScript does and takes every other text
to `NaN`; it prints `NaN`, the infinities and the integers as JavaScript does, and a
fraction as numerator, slash, denominator. -/
def sampleBuiltins : Builtins where
  strToNum := fun s =>
    if s = "" then JSNum.fin 0
    else match arrayIndex? s with
      | some n => JSNum.ofNat n
      | none => JSNum.nan
  numToString := fun n =>
    match n with
    | JSNum.nan => "NaN"
    | JSNum.posInf => "Infinity"
    | JSNum.negInf => "-Infinity"
    | JSNum.fin q => if q.den = 1 then toString q.num else toString q.num ++ "/" ++ toString q.den

/-- The first configured restaurant. -/
def rst1 : Restaurant :=
  { id := "rst-1", name := "Safari Bites", lat := 32.7359, lng := -117.1498 }

/-- The cache after the clicks of the scenario: 5 for ice cream and 3 for coffee on
`rst-1`, from an empty cache and an empty store. -/
def scenarioState : State :=
  (bindPopupInteractions sampleBuiltins rst1
    (bindPopupInteractions sampleBuiltins rst1 ⟨Stored.missing, []⟩
      (Click.rating (selectionKey "rst-1" "ice cream") (JSNum.fin 5))).1
    (Click.rating (selectionKey "rst-1" "coffee") (JSNum.fin 3))).1

/-- The statistics of a restaurant without votes. -/
def emptyStats : Val :=
  Val.obj (categories.map (fun c =>
    (c, Val.obj [("avg", Val.null), ("count", Val.num (JSNum.fin 0))])))

/-! ## Well-formed tables and what the store holds -/

/-- A finite number. -/
def isFiniteNumber : Val → Bool
  | Val.num (JSNum.fin _) => true
  | _ => false

/-- A list of votes as `JSON.parse` yields it: an array of finite numbers. -/
def isRatingList : Val → Bool
  | Val.arr xs [] => xs.all isFiniteNumber
  | _ => false

/-- An object mapping categories to lists of votes. -/
def isCategoryMap : Val → Bool
  | Val.obj cs => cs.all (fun p => isRatingList p.2)
  | _ => false

/-- A well-formed ratings table: an object mapping restaurant ids to objects mapping
categories to lists of votes. -/
def wellFormedTable : Val → Bool
  | Val.obj rs => rs.all (fun p => isCategoryMap p.2)
  | _ => false

/-- A well-formed store: no data yet, or a well-formed ratings table. -/
def wellFormedStore : Stored → Bool
  | Stored.missing => true
  | Stored.malformed => false
  | Stored.json t => wellFormedTable t

/-- The elements of an array, nothing for any other value. -/
def arrayElems? : Val → Option (List Val)
  | Val.arr xs _ => some xs
  | _ => none

/-- The persisted list of a restaurant and a category: the array read as
`loadRatings()[restaurantId][cat]`, if there is one. -/
def storedList (st : Stored) (restaurantId cat : String) : Option (List Val) :=
  match (getProp (loadRatings st) restaurantId >>= fun r => getProp r cat) with
  | Except.ok v => arrayElems? v
  | Except.error _ => none

/-- The value `getRestaurantStats(restaurantId)[c].count`. -/
def statCount (B : Builtins) (st : Stored) (restaurantId c : String) : Except JSError Val := do
  let stats ← getRestaurantStats B st restaurantId
  let s ← getProp stats c
  getProp s "count"

/-- The loop of `ensureRestaurant` on the properties of one restaurant: every category
of `cats` that holds no array receives the empty array. -/
def fillCats (cats : List String) (cs : List (String × Val)) : List (String × Val) :=
  cats.foldl (fun cs c => if (assocGet cs c).isArray then cs else assocSet cs c (Val.arr [] [])) cs

/-- The properties of the object stored for a restaurant, none when there is no object. -/
def catsOf (rs : List (String × Val)) (restaurantId : String) : List (String × Val) :=
  match assocGet rs restaurantId with
  | Val.obj cs => cs
  | _ => []

/-- The entry `{avg, count}` that `getRestaurantStats` computes from a list of votes. -/
def statEntry (B : Builtins) (xs : List Val) : Val :=
  Val.obj [("avg", average B (Val.arr xs [])), ("count", Val.num (JSNum.ofNat xs.length))]

/-- The object `getRestaurantStats` returns when the list of votes of category `c` is
`g c`. -/
def statsOf (B : Builtins) (g : String → List Val) : Val :=
  Val.obj (categories.foldl (fun ss c => assocSet ss c (statEntry B (g c))) [])

/-! # Properties -/

/-! ## Escaping: proofs -/

theorem assocGet_nil (k : String) : assocGet [] k = Val.undefined := rfl

theorem assocGet_cons (p : String × Val) (ps : List (String × Val)) (k : String) :
    assocGet (p :: ps) k = if p.1 = k then p.2 else assocGet ps k := by
  by_cases h : p.1 = k
  · simp [assocGet, List.find?_cons, h]
  · simp [assocGet, List.find?_cons, h]

theorem assocGet_assocSet_self (ps : List (String × Val)) (k : String) (v : Val) :
    assocGet (assocSet ps k v) k = v := by
  induction ps with
  | nil => simp [assocSet, assocGet_cons]
  | cons p ps ih =>
    by_cases h : p.1 = k
    · simp [assocSet, assocGet_cons, h]
    · simp [assocSet, assocGet_cons, h, ih]

theorem assocGet_assocSet_ne (ps : List (String × Val)) (k k' : String) (v : Val)
    (hk : k' ≠ k) : assocGet (assocSet ps k v) k' = assocGet ps k' := by
  induction ps with
  | nil => simp [assocSet, assocGet_cons, assocGet_nil, hk.symm]
  | cons p ps ih =>
    by_cases h : p.1 = k
    · have h' : ¬ p.1 = k' := fun e => hk (e.symm.trans h)
      simp [assocSet, assocGet_cons, h, h', hk.symm]
    · simp [assocSet, assocGet_cons, h, ih]

theorem assocDelete_assocSet (ps : List (String × Val)) (k : String) (v : Val) :
    assocDelete (assocSet ps k v) k = assocDelete ps k := by
  induction ps with
  | nil => simp [assocSet, assocDelete]
  | cons p ps ih =>
    by_cases h : p.1 = k
    · simp [assocSet, assocDelete, h]
    · simp only [assocSet, beq_iff_eq, h, if_false]
      simp only [assocDelete] at ih ⊢
      simp [List.filter_cons, h, ih]

theorem assocDelete_idem (ps : List (String × Val)) (k : String) :
    assocDelete (assocDelete ps k) k = assocDelete ps k := by
  simp [assocDelete, List.filter_filter]

theorem assocDelete_not_mem (ps : List (String × Val)) (k : String) :
    ∀ p ∈ assocDelete ps k, p.1 ≠ k := by
  intro p hp
  simp only [assocDelete, List.mem_filter] at hp
  simpa using hp.2

theorem assocGet_assocDelete_self (ps : List (String × Val)) (k : String) :
    assocGet (assocDelete ps k) k = Val.undefined := by
  have h : (assocDelete ps k).find? (fun p => p.1 == k) = none := by
    rw [List.find?_eq_none]
    intro p hp
    simpa using assocDelete_not_mem ps k p hp
  simp [assocGet, h]

theorem assocGet_assocDelete_ne (ps : List (String × Val)) (k k2 : String) (hk : k2 ≠ k) :
    assocGet (assocDelete ps k) k2 = assocGet ps k2 := by
  induction ps with
  | nil => rfl
  | cons p ps ih =>
    by_cases h : p.1 = k
    · have h2 : ¬ p.1 = k2 := fun e => hk (e.symm.trans h)
      have hd : assocDelete (p :: ps) k = assocDelete ps k := by
        simp [assocDelete, List.filter_cons, h]
      rw [hd, ih, assocGet_cons, if_neg h2]
    · have hd : assocDelete (p :: ps) k = p :: assocDelete ps k := by
        simp [assocDelete, List.filter_cons, h]
      rw [hd, assocGet_cons, assocGet_cons, ih]

/-! ## The toggle -/

theorem toggleSelection_other (sel : List (String × Val)) (k k2 : String) (x : JSNum)
    (hk : k2 ≠ k) : assocGet (toggleSelection sel k x) k2 = assocGet sel k2 := by
  unfold toggleSelection
  simp only
  split_ifs <;> simp only [assocGet_assocDelete_ne _ _ _ hk, assocGet_assocSet_ne _ _ _ _ hk]


theorem toggleSelection_frame (sel : List (String × Val)) (k : String) (x : JSNum) :
    assocDelete (toggleSelection sel k x) k = assocDelete sel k := by
  unfold toggleSelection
  simp only
  split_ifs <;> simp only [assocDelete_idem, assocDelete_assocSet]

/-- C5: the click on a rating button is the toggle on the key `k` of the selection
cache. Clicking `v` when `k` is unset selects `v`; clicking `v` when `k` holds `v` removes
the key from the cache (no entry with that key is left, so it is not kept as
`undefined`); clicking a different `w` when `k` holds `v` selects `w`; and in every case
the entries under the other keys are the same as before. -/
theorem toggle_state_machine (B : Builtins) (r : Restaurant) (s : State) (k : String)
    (v w : ℚ) (hvw : w ≠ v) :
    (assocGet s.selection k = Val.undefined →
      assocGet (bindPopupInteractions B r s (Click.rating k (JSNum.fin v))).1.selection k
        = Val.num (JSNum.fin v)) ∧
    (assocGet s.selection k = Val.num (JSNum.fin v) →
      (∀ p ∈ (bindPopupInteractions B r s (Click.rating k (JSNum.fin v))).1.selection,
        p.1 ≠ k) ∧
      assocGet (bindPopupInteractions B r s (Click.rating k (JSNum.fin v))).1.selection k
        = Val.undefined) ∧
    (assocGet s.selection k = Val.num (JSNum.fin v) →
      assocGet (bindPopupInteractions B r s (Click.rating k (JSNum.fin w))).1.selection k
        = Val.num (JSNum.fin w)) ∧
    (∀ x : JSNum,
      assocDelete (bindPopupInteractions B r s (Click.rating k x)).1.selection k
        = assocDelete s.selection k ∧
      ∀ k2 : String, k2 ≠ k →
        assocGet (bindPopupInteractions B r s (Click.rating k x)).1.selection k2
          = assocGet s.selection k2) := by
  have hsel : ∀ x : JSNum, (bindPopupInteractions B r s (Click.rating k x)).1.selection
      = toggleSelection s.selection k x := fun _ => rfl
  simp only [hsel]
  refine ⟨?_, ?_, ?_, ?_⟩
  · intro h
    simp [toggleSelection, h, Val.strictEq, assocGet_assocSet_self]
  · intro h
    have ht : toggleSelection s.selection k (JSNum.fin v)
        = assocDelete (assocSet s.selection k Val.undefined) k := by
      simp [toggleSelection, h, Val.strictEq, JSNum.strictEq, assocGet_assocSet_self]
    rw [ht]
    exact ⟨assocDelete_not_mem _ k, assocGet_assocDelete_self _ k⟩
  · intro h
    simp [toggleSelection, h, Val.strictEq, JSNum.strictEq, hvw.symm, assocGet_assocSet_self]
  · intro x
    refine ⟨toggleSelection_frame _ k x, ?_⟩
    intro k2 hk2
    exact toggleSelection_other _ k k2 x hk2

/-- C5 at `rate-rst-1-coffee` from an empty cache: selecting 4 then 4 ends unset,
selecting 4 then 2 ends at 2. -/
theorem toggle_state_machine_witness :
    (2 : ℚ) ≠ 4 ∧
    ((∀ p ∈ (bindPopupInteractions sampleBuiltins rst1
        (bindPopupInteractions sampleBuiltins rst1 ⟨Stored.missing, []⟩
          (Click.rating "rate-rst-1-coffee" (JSNum.fin 4))).1
        (Click.rating "rate-rst-1-coffee" (JSNum.fin 4))).1.selection,
        p.1 ≠ "rate-rst-1-coffee") ∧
      assocGet (bindPopupInteractions sampleBuiltins rst1
        (bindPopupInteractions sampleBuiltins rst1 ⟨Stored.missing, []⟩
          (Click.rating "rate-rst-1-coffee" (JSNum.fin 4))).1
        (Click.rating "rate-rst-1-coffee" (JSNum.fin 4))).1.selection "rate-rst-1-coffee"
        = Val.undefined) ∧
    assocGet (bindPopupInteractions sampleBuiltins rst1
      (bindPopupInteractions sampleBuiltins rst1 ⟨Stored.missing, []⟩
        (Click.rating "rate-rst-1-coffee" (JSNum.fin 4))).1
      (Click.rating "rate-rst-1-coffee" (JSNum.fin 2))).1.selection "rate-rst-1-coffee"
      = Val.num (JSNum.fin 2) :=
  ⟨by norm_num,
   (toggle_state_machine sampleBuiltins rst1
      (bindPopupInteractions sampleBuiltins rst1 ⟨Stored.missing, []⟩
        (Click.rating "rate-rst-1-coffee" (JSNum.fin 4))).1
      "rate-rst-1-coffee" 4 2 (by norm_num)).2.1 rfl,
   (toggle_state_machine sampleBuiltins rst1
      (bindPopupInteractions sampleBuiltins rst1 ⟨Stored.missing, []⟩
        (Click.rating "rate-rst-1-coffee" (JSNum.fin 4))).1
      "rate-rst-1-coffee" 4 2 (by norm_num)).2.2.1 rfl⟩

/-! ## Loading -/

theorem jsAdd_fin (B : Builtins) (a b : ℚ) :
    jsAdd B (Val.num (JSNum.fin a)) (Val.num (JSNum.fin b)) = Val.num (JSNum.fin (a + b)) := rfl

/-- The numbers of a list as JavaScript values. -/
theorem foldl_jsAdd_fin (B : Builtins) (L : List ℚ) (a : ℚ) :
    (L.map (fun q => Val.num (JSNum.fin q))).foldl (jsAdd B) (Val.num (JSNum.fin a))
      = Val.num (JSNum.fin (a + L.sum)) := by
  induction L generalizing a with
  | nil => simp
  | cons x xs ih =>
    simp only [List.map_cons, List.foldl_cons, jsAdd_fin, ih, List.sum_cons, add_assoc]

theorem average_numbers (B : Builtins) (L : List ℚ) (ps : List (String × Val)) (hL : L ≠ []) :
    average B (Val.arr (L.map (fun q => Val.num (JSNum.fin q))) ps)
      = Val.num (JSNum.fin ((⌊10 * L.sum / L.length + 1 / 2⌋ : ℤ) / 10)) := by
  have hlen : L.length ≠ 0 := by simpa using hL
  have hlenq : (L.length : ℚ) ≠ 0 := by exact_mod_cast hlen
  simp only [average, List.length_map, hlen, if_false, foldl_jsAdd_fin, toNumber, JSNum.ofNat,
    JSNum.div, hlenq, JSNum.mul, JSNum.round, zero_add]
  have h10 : ¬ ((10 : ℚ) = 0) := by norm_num
  simp only [h10, if_false]
  have : L.sum / (L.length : ℚ) * 10 = 10 * L.sum / L.length := by ring
  rw [this]

theorem sum_bounds (L : List ℚ) (h : ∀ x ∈ L, 1 ≤ x ∧ x ≤ 5) :
    (L.length : ℚ) ≤ L.sum ∧ L.sum ≤ 5 * L.length := by
  induction L with
  | nil => simp
  | cons x xs ih =>
    have hx := h x (List.mem_cons_self x xs)
    have := ih (fun y hy => h y (List.mem_cons_of_mem x hy))
    simp only [List.length_cons, List.sum_cons, Nat.cast_add, Nat.cast_one]
    constructor <;> linarith

/-- C4: for a non-empty list `L` of numbers in `[1,5]`, in exact rational arithmetic,
`average` returns `floor(10 * sum(L) / length(L) + 1/2) / 10`, the mean rounded to one
decimal with halves going up, and this number lies in `[1,5]`; `average` of the empty
array is `null`; `average` of a value that is not an array is `null`. -/
theorem average_spec (B : Builtins) (L : List ℚ) (ps : List (String × Val)) (v : Val)
    (hL : L ≠ []) (hrange : ∀ x ∈ L, 1 ≤ x ∧ x ≤ 5) (hv : v.isArray = false) :
    average B (Val.arr (L.map (fun q => Val.num (JSNum.fin q))) ps)
      = Val.num (JSNum.fin ((⌊10 * L.sum / L.length + 1 / 2⌋ : ℤ) / 10)) ∧
    (1 : ℚ) ≤ (⌊10 * L.sum / L.length + 1 / 2⌋ : ℤ) / 10 ∧
    ((⌊10 * L.sum / L.length + 1 / 2⌋ : ℤ) : ℚ) / 10 ≤ 5 ∧
    average B (Val.arr [] ps) = Val.null ∧
    average B v = Val.null := by
  have hlen : (0 : ℚ) < L.length := by
    have : L.length ≠ 0 := by simpa using hL
    exact_mod_cast Nat.pos_of_ne_zero this
  obtain ⟨hlo, hhi⟩ := sum_bounds L hrange
  have h1 : (10 : ℚ) ≤ 10 * L.sum / L.length := by
    rw [le_div_iff₀ hlen]; linarith
  have h2 : 10 * L.sum / L.length ≤ (50 : ℚ) := by
    rw [div_le_iff₀ hlen]; linarith
  have f1 : (10 : ℤ) ≤ ⌊10 * L.sum / L.length + 1 / 2⌋ := by
    rw [Int.le_floor]; push_cast; linarith
  have f2 : ⌊10 * L.sum / L.length + 1 / 2⌋ ≤ (50 : ℤ) := by
    have : ⌊10 * L.sum / L.length + 1 / 2⌋ < (51 : ℤ) := by
      rw [Int.floor_lt]; push_cast; linarith
    omega
  have f1q : (10 : ℚ) ≤ (⌊10 * L.sum / L.length + 1 / 2⌋ : ℤ) := by exact_mod_cast f1
  have f2q : ((⌊10 * L.sum / L.length + 1 / 2⌋ : ℤ) : ℚ) ≤ 50 := by exact_mod_cast f2
  refine ⟨average_numbers B L ps hL, ?_, ?_, rfl, ?_⟩
  · rw [le_div_iff₀ (by norm_num)]; linarith
  · rw [div_le_iff₀ (by norm_num)]; linarith
  · cases v <;> first | rfl | simp [Val.isArray] at hv

/-- C4 at the list 3, 5: the average is 4; and at the text `abc`, not an array. -/
theorem average_spec_witness :
    average sampleBuiltins (Val.arr [Val.num (JSNum.fin 3), Val.num (JSNum.fin 5)] [])
      = Val.num (JSNum.fin 4) ∧
    average sampleBuiltins (Val.arr [] []) = Val.null ∧
    average sampleBuiltins (Val.str "abc") = Val.null := by
  have h := average_spec sampleBuiltins [3, 5] [] (Val.str "abc") (by simp)
    (by intro x hx; simp at hx; rcases hx with h | h <;> (subst h; norm_num)) rfl
  have hf : (⌊10 * ([3, 5] : List ℚ).sum / (([3, 5] : List ℚ).length : ℚ) + 1 / 2⌋ : ℤ) = 40 := by
    rw [Int.floor_eq_iff]; norm_num
  rw [hf] at h
  refine ⟨?_, h.2.2.2.1, h.2.2.2.2⟩
  have h1 := h.1
  simp only [List.map_cons, List.map_nil] at h1
  rw [h1]
  norm_num

/-! ## Splitting the cache keys -/

theorem splitChars_no_sep (sep : Char) (cs : List Char) :
    ∀ seg ∈ splitChars sep cs, sep ∉ seg := by
  induction cs with
  | nil => intro seg h; simp [splitChars] at h; simp [h]
  | cons c cs ih =>
    intro seg h
    unfold splitChars at h
    split_ifs at h with hc
    · rcases List.mem_cons.mp h with h | h
      · simp [h]
      · exact ih seg h
    · cases hs : splitChars sep cs with
      | nil =>
        rw [hs] at h
        simp at h
        subst h
        simpa using Ne.symm hc
      | cons s0 rest =>
        rw [hs] at h ih
        simp only [List.mem_cons] at h
        rcases h with h | h
        · subst h
          have := ih s0 (List.mem_cons_self _ _)
          simp only [List.mem_cons, not_or]
          exact ⟨Ne.symm hc, this⟩
        · exact ih seg (List.mem_cons_of_mem _ h)

/-- No `-` segment of a cache key is a text containing `-`. -/
theorem splitDash_ne (name id : String) (i : ℕ) (hid : '-' ∈ id.data) :
    (splitDash name)[i]? ≠ some id := by
  intro h
  have hmem : id ∈ splitDash name := List.getElem?_mem h
  simp only [splitDash, List.mem_map] at hmem
  obtain ⟨seg, hseg, hmk⟩ := hmem
  have := splitChars_no_sep '-' name.data seg hseg
  apply this
  rw [← hmk] at hid
  exact hid

theorem configured_id_has_dash (r : Restaurant) (hr : r ∈ restaurants) : '-' ∈ r.id.data := by
  simp only [restaurants, List.mem_cons, List.mem_singleton, List.not_mem_nil, or_false] at hr
  rcases hr with h | h | h | h | h <;> (subst h; decide)

theorem collectSelected_of_dash (sel : List (String × Val)) (r : Restaurant)
    (hid : '-' ∈ r.id.data) : collectSelected sel r = [] := by
  unfold collectSelected
  generalize ([] : List (String × Val)) = acc
  induction sel generalizing acc with
  | nil => rfl
  | cons e es ih =>
    simp only [List.foldl_cons, splitDash_ne e.1 r.id 1 hid, if_false]
    exact ih acc

theorem clearSelections_of_dash (sel : List (String × Val)) (r : Restaurant)
    (hid : '-' ∈ r.id.data) : clearForRestaurant sel r = sel := by
  have key : ∀ (es acc : List (String × Val)),
      es.foldl (fun sel entry =>
        if (splitDash entry.1)[1]? = some r.id then assocDelete sel entry.1 else sel) acc
        = acc := by
    intro es
    induction es with
    | nil => intro acc; rfl
    | cons e es ih =>
      intro acc
      simp only [List.foldl_cons, splitDash_ne e.1 r.id 1 hid, if_false]
      exact ih acc
  exact key sel sel

/-- On a configured restaurant the submit action finds nothing to submit and the clear
action removes nothing: each leaves the storage and the cache as they are. -/
theorem configured_submit_clear (B : Builtins) (r : Restaurant) (hr : r ∈ restaurants)
    (s : State) :
    bindPopupInteractions B r s Click.submit = (s, none) ∧
    bindPopupInteractions B r s Click.clear = (s, none) := by
  have hid := configured_id_has_dash r hr
  constructor
  · simp [bindPopupInteractions, submitAction, collectSelected_of_dash s.selection r hid]
  · simp [bindPopupInteractions, clearSelections_of_dash s.selection r hid]

/-- C1, at the scenario of the claim: from an empty store and an empty cache, selecting 5
for ice cream and 3 for coffee on `rst-1` puts the keys `rate-rst-1-ice cream` and
`rate-rst-1-coffee` in the cache. The submit action splits a key at every `-`, so the
segment it compares with the restaurant id is `rst`, never `rst-1`: it collects nothing,
`addRatings` is not called, the storage stays empty, both keys stay in the cache, and
the statistics of `rst-1` still report no vote. -/
theorem submit_scenario_stores_nothing :
    scenarioState.selection
      = [("rate-rst-1-ice cream", Val.num (JSNum.fin 5)),
         ("rate-rst-1-coffee", Val.num (JSNum.fin 3))] ∧
    splitDash "rate-rst-1-ice cream" = ["rate", "rst", "1", "ice cream"] ∧
    collectSelected scenarioState.selection rst1 = [] ∧
    (bindPopupInteractions sampleBuiltins rst1 scenarioState Click.submit).1.storage
      = Stored.missing ∧
    (bindPopupInteractions sampleBuiltins rst1 scenarioState Click.submit).1.selection
      = scenarioState.selection ∧
    getRestaurantStats sampleBuiltins
      (bindPopupInteractions sampleBuiltins rst1 scenarioState Click.submit).1.storage "rst-1"
      = Except.ok emptyStats := by
  refine ⟨rfl, rfl, rfl, rfl, rfl, rfl⟩

/-- C6, at a concrete cache: with 4 selected for coffee on `rst-1`, the clear action for
`rst-1` leaves the key `rate-rst-1-coffee` selected with the value 4. The key splits at
every `-`, and the segment `rst` is not the restaurant id `rst-1`. -/
theorem clear_keeps_own_selection :
    assocGet (bindPopupInteractions sampleBuiltins rst1
      ⟨Stored.missing, [(selectionKey "rst-1" "coffee", Val.num (JSNum.fin 4))]⟩
      Click.clear).1.selection (selectionKey "rst-1" "coffee") = Val.num (JSNum.fin 4) := by
  rfl

/-- C9, at a store of the wrong shape: when the persisted text is `{"rst-1":5}`, both
`getRestaurantStats("rst-1")` and `addRatings("rst-1", {coffee: 3})` throw a `TypeError`
(`ensureRestaurant` keeps the truthy number 5 and assigns a property on it, in strict
mode); likewise when `rst-1` is mapped to the string `"abc"`. -/
theorem wrong_shape_raises (B : Builtins) :
    getRestaurantStats B (Stored.json (Val.obj [("rst-1", Val.num (JSNum.fin 5))])) "rst-1"
      = Except.error JSError.typeError ∧
    addRatings B (Stored.json (Val.obj [("rst-1", Val.num (JSNum.fin 5))])) "rst-1"
      [("coffee", Val.num (JSNum.fin 3))] = Except.error JSError.typeError ∧
    getRestaurantStats B (Stored.json (Val.obj [("rst-1", Val.str "abc")])) "rst-1"
      = Except.error JSError.typeError :=
  ⟨rfl, rfl, rfl⟩

/-! ## The store on well-formed tables -/

theorem jsonElems_finite (xs : List Val) (h : xs.all isFiniteNumber = true) :
    jsonElems xs = xs := by
  induction xs with
  | nil => simp [jsonElems]
  | cons x xs ih =>
    simp only [List.all_cons, Bool.and_eq_true] at h
    obtain ⟨hx, hxs⟩ := h
    cases x with
    | num n =>
      cases n with
      | fin q => simp [jsonElems, jsonValue, ih hxs]
      | _ => simp [isFiniteNumber] at hx
    | _ => simp [isFiniteNumber] at hx

theorem jsonValue_ratingList (l : Val) (h : isRatingList l = true) : jsonValue l = l := by
  cases l with
  | arr xs ps =>
    cases ps with
    | nil =>
      simp only [isRatingList] at h
      simp [jsonValue, jsonElems_finite xs h]
    | cons p ps => simp [isRatingList] at h
  | _ => simp [isRatingList] at h

theorem jsonProps_cats (cs : List (String × Val))
    (h : cs.all (fun p => isRatingList p.2) = true) : jsonProps cs = cs := by
  induction cs with
  | nil => simp [jsonProps]
  | cons p ps ih =>
    simp only [List.all_cons, Bool.and_eq_true] at h
    obtain ⟨hp, hps⟩ := h
    obtain ⟨k, l⟩ := p
    have hl := jsonValue_ratingList l hp
    cases l with
    | undefined => simp [isRatingList] at hp
    | _ => simp [jsonProps, hl, ih hps]

theorem jsonValue_categoryMap (m : Val) (h : isCategoryMap m = true) : jsonValue m = m := by
  cases m with
  | obj cs =>
    simp only [isCategoryMap] at h
    simp [jsonValue, jsonProps_cats cs h]
  | _ => simp [isCategoryMap] at h

theorem jsonProps_table (rs : List (String × Val))
    (h : rs.all (fun p => isCategoryMap p.2) = true) : jsonProps rs = rs := by
  induction rs with
  | nil => simp [jsonProps]
  | cons p ps ih =>
    simp only [List.all_cons, Bool.and_eq_true] at h
    obtain ⟨hp, hps⟩ := h
    obtain ⟨k, m⟩ := p
    have hm := jsonValue_categoryMap m hp
    cases m with
    | undefined => simp [isCategoryMap] at hp
    | _ => simp [jsonProps, hm, ih hps]

theorem saveRatings_table (rs : List (String × Val))
    (h : rs.all (fun p => isCategoryMap p.2) = true) :
    saveRatings (Val.obj rs) = Stored.json (Val.obj rs) := by
  simp [saveRatings, jsonValue, jsonProps_table rs h]

/-! ### Property lists, continued -/

theorem assocSet_assocSet (ps : List (String × Val)) (k : String) (v w : Val) :
    assocSet (assocSet ps k v) k w = assocSet ps k w := by
  induction ps with
  | nil => simp [assocSet]
  | cons p ps ih =>
    by_cases h : p.1 = k
    · simp [assocSet, h]
    · simp [assocSet, h, ih]

theorem assocGet_mem (ps : List (String × Val)) (k : String) (h : assocGet ps k ≠ Val.undefined) :
    (k, assocGet ps k) ∈ ps := by
  induction ps with
  | nil => simp [assocGet_nil] at h
  | cons p ps ih =>
    rw [assocGet_cons] at h ⊢
    by_cases hk : p.1 = k
    · simp only [hk, if_true]
      rw [← hk]
      exact List.mem_cons_self _ _
    · simp only [hk, if_false] at h ⊢
      exact List.mem_cons_of_mem _ (ih h)

theorem assocSet_assocGet (ps : List (String × Val)) (k : String)
    (h : assocGet ps k ≠ Val.undefined) : assocSet ps k (assocGet ps k) = ps := by
  induction ps with
  | nil => simp [assocGet_nil] at h
  | cons p ps ih =>
    rw [assocGet_cons] at h ⊢
    by_cases hk : p.1 = k
    · simp only [hk, if_true, assocSet, beq_self_eq_true]
      rw [← hk]
    · simp only [hk, if_false] at h ⊢
      simp [assocSet, hk, ih h]

theorem mem_assocSet (ps : List (String × Val)) (k : String) (v : Val) (p : String × Val)
    (hp : p ∈ assocSet ps k v) : p ∈ ps ∨ p = (k, v) := by
  induction ps with
  | nil => simp [assocSet] at hp; exact Or.inr hp
  | cons q qs ih =>
    by_cases hk : q.1 = k
    · simp only [assocSet, hk, beq_self_eq_true, if_true, List.mem_cons] at hp
      rcases hp with h | h
      · exact Or.inr h
      · exact Or.inl (List.mem_cons_of_mem _ h)
    · simp only [assocSet, beq_iff_eq, hk, if_false, List.mem_cons] at hp
      rcases hp with h | h
      · exact Or.inl (h ▸ List.mem_cons_self _ _)
      · rcases ih h with h' | h'
        · exact Or.inl (List.mem_cons_of_mem _ h')
        · exact Or.inr h'

theorem all_assocSet (f : Val → Bool) (ps : List (String × Val)) (k : String) (v : Val)
    (hps : ps.all (fun p => f p.2) = true) (hv : f v = true) :
    (assocSet ps k v).all (fun p => f p.2) = true := by
  rw [List.all_eq_true] at hps ⊢
  intro p hp
  rcases mem_assocSet ps k v p hp with h | h
  · exact hps p h
  · subst h; exact hv

theorem all_assocGet (f : Val → Bool) (ps : List (String × Val)) (k : String)
    (hps : ps.all (fun p => f p.2) = true) (h : assocGet ps k ≠ Val.undefined) :
    f (assocGet ps k) = true := by
  rw [List.all_eq_true] at hps
  exact hps _ (assocGet_mem ps k h)

/-! ### `ensureRestaurant` -/

theorem fillCats_nil (cs : List (String × Val)) : fillCats [] cs = cs := rfl

theorem fillCats_cons (c : String) (L : List String) (cs : List (String × Val)) :
    fillCats (c :: L) cs
      = fillCats L (if (assocGet cs c).isArray then cs else assocSet cs c (Val.arr [] [])) := rfl

theorem fillCats_get (L : List String) (cs : List (String × Val)) (c : String) :
    assocGet (fillCats L cs) c
      = if c ∈ L ∧ (assocGet cs c).isArray = false then Val.arr [] [] else assocGet cs c := by
  induction L generalizing cs with
  | nil => simp [fillCats_nil]
  | cons d L ih =>
    rw [fillCats_cons, ih]
    by_cases hd : (assocGet cs d).isArray = true
    · simp only [hd, if_true, List.mem_cons]
      by_cases hcd : c = d
      · subst hcd; simp [hd]
      · simp [hcd]
    · simp only [hd, Bool.false_eq_true, if_false, List.mem_cons]
      by_cases hcd : c = d
      · subst hcd
        simp only [assocGet_assocSet_self, true_or, true_and]
        have : (Val.arr [] []).isArray = true := rfl
        simp [this, hd]
      · rw [assocGet_assocSet_ne _ _ _ _ hcd]
        simp [hcd]

theorem fillCats_all (L : List String) (cs : List (String × Val))
    (h : cs.all (fun p => isRatingList p.2) = true) :
    (fillCats L cs).all (fun p => isRatingList p.2) = true := by
  induction L generalizing cs with
  | nil => simpa [fillCats_nil] using h
  | cons d L ih =>
    rw [fillCats_cons]
    apply ih
    split_ifs
    · exact h
    · exact all_assocSet isRatingList cs d _ h rfl

theorem getProp_obj (ps : List (String × Val)) (k : String) :
    getProp (Val.obj ps) k = Except.ok (assocGet ps k) := rfl

theorem setProp_obj (B : Builtins) (ps : List (String × Val)) (k : String) (v : Val) :
    setProp B (Val.obj ps) k v = Except.ok (Val.obj (assocSet ps k v)) := rfl

theorem ensureCategory_obj (B : Builtins) (id c : String) (rs cs : List (String × Val))
    (h : assocGet rs id = Val.obj cs) :
    ensureCategory B id (Val.obj rs) c
      = Except.ok (Val.obj (assocSet rs id (Val.obj
          (if (assocGet cs c).isArray then cs else assocSet cs c (Val.arr [] []))))) := by
  have hself : assocSet rs id (Val.obj cs) = rs := by
    rw [← h]; exact assocSet_assocGet rs id (by rw [h]; simp)
  unfold ensureCategory
  rw [getProp_obj, h]
  by_cases hx : (assocGet cs c).isArray = true
  · simp [bind, Except.bind, getProp_obj, hx, hself, pure, Except.pure]
  · simp [bind, Except.bind, getProp_obj, hx, setProp_obj]

/-- The loop of `ensureRestaurant` over the categories `L`, on a table whose entry for
the restaurant is the object with properties `cs`. -/
theorem ensure_loop (B : Builtins) (id : String) (L : List String) :
    ∀ (rs cs : List (String × Val)), assocGet rs id = Val.obj cs →
      L.foldlM (ensureCategory B id) (Val.obj rs)
      = Except.ok (Val.obj (assocSet rs id (Val.obj (fillCats L cs)))) := by
  induction L with
  | nil =>
    intro rs cs h
    have : assocSet rs id (Val.obj cs) = rs := by
      rw [← h]; exact assocSet_assocGet rs id (by rw [h]; simp)
    simp [fillCats_nil, this, pure, Except.pure]
  | cons c L ih =>
    intro rs cs h
    rw [List.foldlM_cons, fillCats_cons, ensureCategory_obj B id c rs cs h]
    simp only [bind, Except.bind]
    rw [ih _ _ (assocGet_assocSet_self _ _ _), assocSet_assocSet]

/-- The table that `ensureRestaurant` leaves. -/
theorem ensureRestaurant_table (B : Builtins) (rs : List (String × Val)) (id : String)
    (h : assocGet rs id = Val.undefined ∨ ∃ cs, assocGet rs id = Val.obj cs) :
    ensureRestaurant B (Val.obj rs) id
      = Except.ok (Val.obj (assocSet rs id (Val.obj (fillCats categories (catsOf rs id))))) := by
  unfold ensureRestaurant
  rw [getProp_obj]
  rcases h with h | ⟨cs, h⟩
  · simp only [h, bind, Except.bind, Val.truthy, setProp_obj, Bool.not_false, if_true]
    rw [ensure_loop B id categories (assocSet rs id (Val.obj [])) []
      (assocGet_assocSet_self _ _ _), assocSet_assocSet]
    simp [catsOf, h]
  · simp only [h, bind, Except.bind, Val.truthy, Bool.not_true, Bool.false_eq_true, if_false,
      pure, Except.pure]
    rw [ensure_loop B id categories rs cs h]
    simp [catsOf, h]

/-! ### `addRatings` -/

theorem valid_iff (n : JSNum) :
    (n.isFinite && JSNum.ge n (JSNum.fin 1) && JSNum.le n (JSNum.fin 5)) = true
      ↔ ∃ q : ℚ, n = JSNum.fin q ∧ 1 ≤ q ∧ q ≤ 5 := by
  cases n with
  | fin q => simp [JSNum.isFinite, JSNum.ge, JSNum.le]
  | _ => simp [JSNum.isFinite]

theorem addRating_invalid (B : Builtins) (id : String) (all : Val) (entry : String × Val)
    (h : ¬ ∃ q : ℚ, toNumber B entry.2 = JSNum.fin q ∧ 1 ≤ q ∧ q ≤ 5) :
    addRating B id all entry = Except.ok all := by
  unfold addRating
  rw [← valid_iff] at h
  simp only [h, Bool.false_eq_true, if_false]
  rfl

theorem wellFormed_load (st : Stored) (h : wellFormedStore st = true) :
    ∃ rs, loadRatings st = Val.obj rs ∧ rs.all (fun p => isCategoryMap p.2) = true := by
  cases st with
  | missing => exact ⟨[], rfl, rfl⟩
  | malformed => simp [wellFormedStore] at h
  | json t =>
    cases t with
    | obj rs => exact ⟨rs, rfl, by simpa [wellFormedStore, wellFormedTable] using h⟩
    | _ => simp [wellFormedStore, wellFormedTable] at h

theorem table_entry (rs : List (String × Val)) (id : String)
    (h : rs.all (fun p => isCategoryMap p.2) = true) :
    (assocGet rs id = Val.undefined ∨ assocGet rs id = Val.obj (catsOf rs id)) ∧
    (catsOf rs id).all (fun p => isRatingList p.2) = true := by
  by_cases hu : assocGet rs id = Val.undefined
  · exact ⟨Or.inl hu, by simp [catsOf, hu]⟩
  · have := all_assocGet isCategoryMap rs id h hu
    cases hg : assocGet rs id with
    | obj cs =>
      rw [hg] at this
      exact ⟨Or.inr (by simp [catsOf, hg]), by simpa [catsOf, hg, isCategoryMap] using this⟩
    | _ => rw [hg] at this; simp [isCategoryMap] at this

theorem table_shape (rs : List (String × Val)) (id : String)
    (h : rs.all (fun p => isCategoryMap p.2) = true) :
    assocGet rs id = Val.undefined ∨ ∃ cs, assocGet rs id = Val.obj cs := by
  rcases (table_entry rs id h).1 with h | h
  · exact Or.inl h
  · exact Or.inr ⟨_, h⟩

theorem storedList_eq (st : Stored) (rs : List (String × Val)) (id c : String)
    (hload : loadRatings st = Val.obj rs)
    (h : rs.all (fun p => isCategoryMap p.2) = true) :
    storedList st id c = arrayElems? (assocGet (catsOf rs id) c) := by
  unfold storedList
  rw [hload, getProp_obj]
  rcases (table_entry rs id h).1 with hg | hg
  · have : catsOf rs id = [] := by simp [catsOf, hg]
    rw [hg, this]
    rfl
  · rw [hg]
    rfl

theorem catsOf_assocSet_self (rs cs : List (String × Val)) (id : String) :
    catsOf (assocSet rs id (Val.obj cs)) id = cs := by
  simp [catsOf, assocGet_assocSet_self]

/-- What a rating list is: an array without named properties. -/
theorem ratingList_cases (l : Val) (h : isRatingList l = true) :
    ∃ xs, l = Val.arr xs [] ∧ xs.all isFiniteNumber = true := by
  cases l with
  | arr xs ps =>
    cases ps with
    | nil => exact ⟨xs, rfl, by simpa [isRatingList] using h⟩
    | cons p ps => simp [isRatingList] at h
  | _ => simp [isRatingList] at h

/-- After `ensureRestaurant`, each category of the five holds the array stored before,
or the empty array. -/
theorem filled_category (cs : List (String × Val)) (c : String)
    (hcs : cs.all (fun p => isRatingList p.2) = true) (hc : c ∈ categories) :
    ∃ xs, assocGet (fillCats categories cs) c = Val.arr xs [] ∧
      xs.all isFiniteNumber = true ∧ xs = (arrayElems? (assocGet cs c)).getD [] := by
  rw [fillCats_get]
  by_cases hu : assocGet cs c = Val.undefined
  · refine ⟨[], ?_, rfl, ?_⟩
    · simp [hc, hu, Val.isArray]
    · simp [hu, arrayElems?]
  · obtain ⟨xs, hxs, hfin⟩ := ratingList_cases _ (all_assocGet isRatingList cs c hcs hu)
    refine ⟨xs, ?_, hfin, ?_⟩
    · simp [hxs, Val.isArray]
    · simp [hxs, arrayElems?]

/-- The result of `addRatings` with one entry on a well-formed store, when the value
fails the check: the table after `ensureRestaurant`. -/
theorem addRatings_invalid (B : Builtins) (st : Stored) (rs : List (String × Val))
    (id cat : String) (raw : Val)
    (hload : loadRatings st = Val.obj rs)
    (hrs : rs.all (fun p => isCategoryMap p.2) = true)
    (hraw : ¬ ∃ q : ℚ, toNumber B raw = JSNum.fin q ∧ 1 ≤ q ∧ q ≤ 5) :
    addRatings B st id [(cat, raw)]
      = Except.ok (Stored.json (Val.obj (assocSet rs id (Val.obj
          (fillCats categories (catsOf rs id)))))) ∧
    (assocSet rs id (Val.obj (fillCats categories (catsOf rs id)))).all
      (fun p => isCategoryMap p.2) = true := by
  obtain ⟨_, hcs⟩ := table_entry rs id hrs
  have hwf : (assocSet rs id (Val.obj (fillCats categories (catsOf rs id)))).all
      (fun p => isCategoryMap p.2) = true := by
    apply all_assocSet isCategoryMap rs id _ hrs
    simp only [isCategoryMap]
    exact fillCats_all categories _ hcs
  refine ⟨?_, hwf⟩
  unfold addRatings
  rw [hload]
  dsimp only
  rw [ensureRestaurant_table B rs id (table_shape rs id hrs)]
  simp only [bind, Except.bind, List.foldlM_cons, List.foldlM_nil]
  rw [addRating_invalid B id _ (cat, raw) hraw]
  simp only [pure, Except.pure, saveRatings_table _ hwf]

/-! ### `getRestaurantStats` -/

theorem categoryStats_obj (B : Builtins) (id c : String) (rs cs ss : List (String × Val))
    (xs : List Val) (hrs : assocGet rs id = Val.obj cs) (hcs : assocGet cs c = Val.arr xs []) :
    categoryStats B id (Val.obj rs) (Val.obj ss) c
      = Except.ok (Val.obj (assocSet ss c (statEntry B xs))) := by
  unfold categoryStats
  simp only [getProp_obj, hrs, hcs, bind, Except.bind, setProp_obj]
  simp [getProp, statEntry, pure, Except.pure]

theorem stats_loop (B : Builtins) (id : String) (rs cs : List (String × Val))
    (g : String → List Val) (hrs : assocGet rs id = Val.obj cs) (L : List String) :
    ∀ ss : List (String × Val), (∀ c ∈ L, assocGet cs c = Val.arr (g c) []) →
      L.foldlM (categoryStats B id (Val.obj rs)) (Val.obj ss)
        = Except.ok (Val.obj (L.foldl (fun ss c => assocSet ss c (statEntry B (g c))) ss)) := by
  induction L with
  | nil => intro ss _; rfl
  | cons c L ih =>
    intro ss h
    rw [List.foldlM_cons, categoryStats_obj B id c rs cs ss (g c) hrs
      (h c (List.mem_cons_self _ _))]
    simp only [bind, Except.bind, List.foldl_cons]
    exact ih _ (fun d hd => h d (List.mem_cons_of_mem _ hd))

/-- The statistics of a well-formed store, from the lists it holds. -/
theorem getRestaurantStats_table (B : Builtins) (st : Stored) (rs : List (String × Val))
    (id : String) (hload : loadRatings st = Val.obj rs)
    (hrs : rs.all (fun p => isCategoryMap p.2) = true) :
    getRestaurantStats B st id
      = Except.ok (statsOf B (fun c => (storedList st id c).getD [])) := by
  obtain ⟨_, hcs⟩ := table_entry rs id hrs
  unfold getRestaurantStats
  rw [hload]
  dsimp only
  rw [ensureRestaurant_table B rs id (table_shape rs id hrs)]
  simp only [bind, Except.bind]
  rw [stats_loop B id _ (fillCats categories (catsOf rs id))
    (fun c => (storedList st id c).getD []) (assocGet_assocSet_self _ _ _) categories []]
  · rfl
  · intro c hc
    obtain ⟨xs, hget, _, hxs⟩ := filled_category (catsOf rs id) c hcs hc
    rw [hget, storedList_eq st rs id c hload hrs, hxs]

theorem getRestaurantStats_wellFormed (B : Builtins) (st : Stored) (id : String)
    (h : wellFormedStore st = true) :
    getRestaurantStats B st id
      = Except.ok (statsOf B (fun c => (storedList st id c).getD [])) := by
  obtain ⟨rs, hload, hrs⟩ := wellFormed_load st h
  exact getRestaurantStats_table B st rs id hload hrs

theorem foldl_assocSet_get_not_mem (f : String → Val) (L : List String) (c : String)
    (hc : c ∉ L) (ss : List (String × Val)) :
    assocGet (L.foldl (fun ss c => assocSet ss c (f c)) ss) c = assocGet ss c := by
  induction L generalizing ss with
  | nil => rfl
  | cons d L ih =>
    simp only [List.mem_cons, not_or] at hc
    simp only [List.foldl_cons]
    rw [ih hc.2, assocGet_assocSet_ne _ _ _ _ hc.1]

theorem foldl_assocSet_get (f : String → Val) (L : List String) (c : String)
    (hc : c ∈ L) (ss : List (String × Val)) :
    assocGet (L.foldl (fun ss c => assocSet ss c (f c)) ss) c = f c := by
  induction L generalizing ss with
  | nil => simp at hc
  | cons d L ih =>
    simp only [List.foldl_cons]
    by_cases hL : c ∈ L
    · exact ih hL _
    · have hcd : c = d := by
        rcases List.mem_cons.mp hc with h | h
        · exact h
        · exact absurd h hL
      subst hcd
      rw [foldl_assocSet_get_not_mem f L c hL, assocGet_assocSet_self]

theorem statCount_wellFormed (B : Builtins) (st : Stored) (id c : String)
    (h : wellFormedStore st = true) (hc : c ∈ categories) :
    statCount B st id c
      = Except.ok (Val.num (JSNum.ofNat ((storedList st id c).getD []).length)) := by
  unfold statCount
  rw [getRestaurantStats_wellFormed B st id h]
  simp only [bind, Except.bind, statsOf, getProp_obj]
  rw [foldl_assocSet_get (fun c => statEntry B ((storedList st id c).getD [])) categories c hc]
  simp [statEntry, getProp_obj, assocGet_cons]

theorem arrayElems?_of_not_array (v : Val) (h : v.isArray = false) : arrayElems? v = none := by
  cases v <;> simp_all [arrayElems?, Val.isArray]

/-- The lists of a restaurant after the loop of `ensureRestaurant`: a category of the
five without a list receives the empty list, every other list is as before. -/
theorem fillCats_elems (cs : List (String × Val)) (c : String) :
    arrayElems? (assocGet (fillCats categories cs) c)
      = if c ∈ categories ∧ (assocGet cs c).isArray = false then some []
        else arrayElems? (assocGet cs c) := by
  rw [fillCats_get]
  split_ifs <;> rfl

theorem fillCats_elems_getD (cs : List (String × Val)) (c : String) :
    (arrayElems? (assocGet (fillCats categories cs) c)).getD []
      = (arrayElems? (assocGet cs c)).getD [] := by
  rw [fillCats_elems]
  split_ifs with h
  · rw [arrayElems?_of_not_array _ h.2]; rfl
  · rfl

/-- C3: on a well-formed store, `addRatings(id, {cat: raw})` with a raw value whose
numeric coercion is not a finite number in `[1,5]` completes, and afterwards
`getRestaurantStats(id)` reports for every category the count it reported before (the
whole statistics object is the same). -/
theorem addRatings_rejects (B : Builtins) (st : Stored) (id cat : String) (raw : Val)
    (hwf : wellFormedStore st = true)
    (hraw : ¬ ∃ q : ℚ, toNumber B raw = JSNum.fin q ∧ 1 ≤ q ∧ q ≤ 5) :
    ∃ st2, addRatings B st id [(cat, raw)] = Except.ok st2 ∧
      (∀ c ∈ categories, ∃ n : ℕ,
        statCount B st id c = Except.ok (Val.num (JSNum.ofNat n)) ∧
        statCount B st2 id c = Except.ok (Val.num (JSNum.ofNat n))) ∧
      getRestaurantStats B st2 id = getRestaurantStats B st id := by
  obtain ⟨rs, hload, hrs⟩ := wellFormed_load st hwf
  obtain ⟨hadd, hwf2⟩ := addRatings_invalid B st rs id cat raw hload hrs hraw
  obtain ⟨rs2, hrs2⟩ : ∃ rs2, rs2 = assocSet rs id (Val.obj (fillCats categories (catsOf rs id))) :=
    ⟨_, rfl⟩
  rw [← hrs2] at hadd hwf2
  have hwf2s : wellFormedStore (Stored.json (Val.obj rs2)) = true := by
    simpa [wellFormedStore, wellFormedTable] using hwf2
  have hlists : ∀ c, (storedList (Stored.json (Val.obj rs2)) id c).getD []
      = (storedList st id c).getD [] := by
    intro c
    rw [storedList_eq (Stored.json (Val.obj rs2)) rs2 id c rfl hwf2,
      storedList_eq st rs id c hload hrs, hrs2, catsOf_assocSet_self, fillCats_elems_getD]
  refine ⟨_, hadd, ?_, ?_⟩
  · intro c hc
    refine ⟨((storedList st id c).getD []).length, statCount_wellFormed B st id c hwf hc, ?_⟩
    rw [statCount_wellFormed B _ id c hwf2s hc, hlists c]
  · rw [getRestaurantStats_wellFormed B _ id hwf2s, getRestaurantStats_wellFormed B st id hwf]
    simp only [hlists]

/-- C3 at a store holding one vote for coffee on `rst-1` and the raw value `"abc"`. -/
theorem addRatings_rejects_witness :
    ∃ st2, addRatings sampleBuiltins
        (Stored.json (Val.obj [("rst-1", Val.obj [("coffee", Val.arr [Val.num (JSNum.fin 4)] [])])]))
        "rst-1" [("coffee", Val.str "abc")] = Except.ok st2 ∧
      (∀ c ∈ categories, ∃ n : ℕ,
        statCount sampleBuiltins
          (Stored.json (Val.obj [("rst-1", Val.obj [("coffee", Val.arr [Val.num (JSNum.fin 4)] [])])]))
          "rst-1" c = Except.ok (Val.num (JSNum.ofNat n)) ∧
        statCount sampleBuiltins st2 "rst-1" c = Except.ok (Val.num (JSNum.ofNat n))) ∧
      getRestaurantStats sampleBuiltins st2 "rst-1"
        = getRestaurantStats sampleBuiltins
          (Stored.json (Val.obj [("rst-1", Val.obj [("coffee", Val.arr [Val.num (JSNum.fin 4)] [])])]))
          "rst-1" :=
  addRatings_rejects sampleBuiltins
    (Stored.json (Val.obj [("rst-1", Val.obj [("coffee", Val.arr [Val.num (JSNum.fin 4)] [])])]))
    "rst-1" "coffee" (Val.str "abc") rfl
    (by
      rintro ⟨q, hq, _⟩
      have : toNumber sampleBuiltins (Val.str "abc") = JSNum.nan := rfl
      rw [this] at hq
      exact JSNum.noConfusion hq)

/-! ### Votes are appended -/

end ZooRatings
